import Mathlib

/-!
Verification of the dirty-propagating value cache and the format-plug
widget update logic of the gaffer repository.

The repository's own sources under scrutiny are a unit test
(`GafferTest/OpHolderTest.py`) exercising the dirty/compute propagation of
the plug graph, and a UI widget (`GafferImageUI/FormatPlugValueWidget.py`).
The dirty-propagation engine itself is native library code not present in
the repository files, so it is modelled here from the specification's own
words (sections 3, 4 and 7 of the spec); the widget's `_updateFromPlug`
method is embedded directly from its Python source.
-/

namespace GafferProof

/-- Modelled from the spec: a slot's payload is opaque and typed; `unset` is
the designated "unset" sentinel returned by a slot with no compute function
and no prior `setValue`. -/
inductive Value (V : Type) where
  | unset
  | mk (v : V)
deriving DecidableEq

/-- Modelled from the spec (section 7): the error kinds `UnknownSlot`,
`DuplicateKey`, `CycleDetected`, `ComputedSlotReadOnly`, and the wrapper for
a compute function's own failure, which propagates unchanged. -/
inductive Err (E : Type) where
  | unknownSlot
  | duplicateKey
  | cycleDetected
  | computedSlotReadOnly
  | computeFailed (e : E)
deriving DecidableEq

/-- Modelled from the spec (section 3): a slot has a cached value, a dirty
flag, an optional compute function (from its upstream slots' values, which
may fail with an error of type `E`), and its upstream and downstream edges,
kept in wiring order so that recomputation order is deterministic. -/
structure Slot (V E : Type) where
  value : Value V
  dirty : Bool
  compute : Option (List (Value V) → Except E (Value V))
  upstream : List String
  downstream : List String

/-- Modelled from the spec (section 3): a graph is a mapping from slot key
to slot; keys are stable string identifiers (section 9). -/
structure Graph (V E : Type) where
  slots : List (String × Slot V E)

variable {V E : Type}

/-- The empty graph. -/
def Graph.empty : Graph V E := ⟨[]⟩

/-- Look a slot up by key. -/
def Graph.find? (g : Graph V E) (k : String) : Option (Slot V E) :=
  (g.slots.find? fun p => p.1 == k).map fun p => p.2

/-- Replace the slot stored under `k` by `f` of it, leaving every other
slot untouched. -/
def Graph.update (g : Graph V E) (k : String) (f : Slot V E → Slot V E) :
    Graph V E :=
  ⟨g.slots.map fun p => if p.1 == k then (p.1, f p.2) else p⟩

/-- Modelled from the spec (section 4): `addSlot` registers a slot; it fails
with `DuplicateKey` if the key exists. A freshly registered slot holds the
unset sentinel; it is dirty exactly when it owns a compute function (its
cached value must not be trusted until recomputed), so a fresh slot with no
compute function reports dirty = false. -/
def Graph.addSlot (g : Graph V E) (k : String)
    (compute : Option (List (Value V) → Except E (Value V))) :
    Except (Err E) Unit × Graph V E :=
  match g.find? k with
  | some _ => (Except.error Err.duplicateKey, g)
  | none =>
    (Except.ok (),
     ⟨g.slots ++ [(k, ⟨Value.unset, compute.isSome, compute, [], []⟩)]⟩)

/-- The downstream edge list of `k`, or `[]` when `k` is absent. -/
def Graph.downstreamOf (g : Graph V E) (k : String) : List String :=
  match g.find? k with
  | some s => s.downstream
  | none => []

/-- The number of downstream edges recorded in the graph. -/
def Graph.edgeCount (g : Graph V E) : Nat :=
  (g.slots.map fun p => p.2.downstream.length).sum

/-- Fuel-bounded breadth-first traversal of the downstream edges: pops the
frontier head, skips it if already visited, otherwise records it and
enqueues its downstream slots; each slot is visited at most once. -/
def Graph.reachAux (g : Graph V E) : Nat → List String → List String → List String
  | 0, _, visited => visited
  | Nat.succ n, frontier, visited =>
    match frontier with
    | [] => visited
    | k :: rest =>
      if visited.contains k then g.reachAux n rest visited
      else g.reachAux n (rest ++ g.downstreamOf k) (visited ++ [k])

/-- Modelled from the spec (section 4): the slots transitively reachable via
downstream edges from `k`, `k` itself included, by breadth-first traversal
visiting each slot at most once. The fuel bounds the traversal by the slot
and edge counts, which suffices since each step either visits a new slot or
discards one enqueued frontier entry. -/
def Graph.reachable (g : Graph V E) (k : String) : List String :=
  g.reachAux (g.slots.length + g.edgeCount + 1) [k] []

/-- Modelled from the spec (section 4): `addDependency(fromKey, toKey)`
records that `toKey` reads `fromKey`; it fails with `UnknownSlot` if either
key is absent and with `CycleDetected` if the new edge would close a cycle
(some downstream path from `toKey` already reaches `fromKey`), leaving the
graph unchanged on failure. On success it appends the edge on both sides
and marks the new downstream slot dirty immediately (section 4, side
effects). -/
def Graph.addDependency (g : Graph V E) (fromKey toKey : String) :
    Except (Err E) Unit × Graph V E :=
  match g.find? fromKey, g.find? toKey with
  | none, _ => (Except.error Err.unknownSlot, g)
  | some _, none => (Except.error Err.unknownSlot, g)
  | some _, some _ =>
    if (g.reachable toKey).contains fromKey then
      (Except.error Err.cycleDetected, g)
    else
      (Except.ok (),
       ((g.update fromKey fun s => { s with downstream := s.downstream ++ [toKey] }).update
          toKey fun s => { s with upstream := s.upstream ++ [fromKey], dirty := true }))

/-- Modelled from the spec (section 4): `setValue` fails with `UnknownSlot`
if the key is absent and with `ComputedSlotReadOnly` if the slot owns a
compute function, leaving the graph unchanged on failure. Otherwise it
stores the value, clears the dirty flag on the key and marks every slot
transitively reachable via downstream edges dirty, the key itself excluded.
No value-equality short-circuit: the stored value is never compared with the
incoming one. -/
def Graph.setValue (g : Graph V E) (k : String) (x : V) :
    Except (Err E) Unit × Graph V E :=
  match g.find? k with
  | none => (Except.error Err.unknownSlot, g)
  | some s =>
    if s.compute.isSome then (Except.error Err.computedSlotReadOnly, g)
    else
      let g1 := g.update k fun t => { t with value := Value.mk x, dirty := false }
      let downs := (g1.reachable k).filter fun j => j != k
      (Except.ok (),
       downs.foldl (fun h j => h.update j fun t => { t with dirty := true }) g1)

/-- Fold a cleaning step over a list of keys, threading the graph, appending
the compute logs, and aborting on the first compute failure. -/
def foldClean (step : Graph V E → String → Graph V E × List String × Option E) :
    Graph V E → List String → Graph V E × List String × Option E
  | g, [] => (g, [], none)
  | g, k :: rest =>
    match step g k with
    | (g1, log1, some e) => (g1, log1, some e)
    | (g1, log1, none) =>
      let r := foldClean step g1 rest
      (r.1, log1 ++ r.2.1, r.2.2)

/-- Modelled from the spec (sections 4 and 7): recursively make the slot
`k` clean. A slot that is absent, clean, or dirty without a compute
function is left untouched. A dirty slot with a compute function first has
all of its upstream slots cleaned depth-first in wiring order (each slot
recomputed at most once, since cleaning clears its dirty flag), then its
compute function is applied to the current upstream values; on success the
result is cached and the dirty flag cleared, while a compute failure leaves
the slot's value and dirty flag untouched and aborts with the failure. The
returned list logs, in order, every key whose compute function was invoked.
The fuel bounds the recursion depth, which on an acyclic graph never
exceeds the number of slots. -/
def cleanSlot : Nat → Graph V E → String → Graph V E × List String × Option E
  | 0, g, _ => (g, [], none)
  | Nat.succ n, g, k =>
    match g.find? k with
    | none => (g, [], none)
    | some s =>
      match s.dirty, s.compute with
      | true, some f =>
        match foldClean (cleanSlot n) g s.upstream with
        | (g1, log1, some e) => (g1, log1, some e)
        | (g1, log1, none) =>
          let inputs := s.upstream.map fun u =>
            match g1.find? u with
            | some t => t.value
            | none => Value.unset
          match f inputs with
          | Except.error e => (g1, log1 ++ [k], some e)
          | Except.ok v =>
            (g1.update k fun t => { t with value := v, dirty := false },
             log1 ++ [k], none)
      | _, _ => (g, [], none)

/-- Modelled from the spec (section 4): `getValue` fails with `UnknownSlot`
if the key is absent. If the slot is dirty and owns a compute function, it
is cleaned recursively (upstream first) and the freshly cached value
returned, a compute failure propagating unchanged as `computeFailed`. If it
is dirty without a compute function, the last stored value is returned. If
it is clean, the cached value is returned directly with no recomputation
and no side effect. The result carries the post-call graph and the log of
compute-function invocations. -/
def Graph.getValue (g : Graph V E) (k : String) :
    Except (Err E) (Value V) × Graph V E × List String :=
  match g.find? k with
  | none => (Except.error Err.unknownSlot, g, [])
  | some s =>
    if s.dirty then
      match s.compute with
      | some _ =>
        match cleanSlot (g.slots.length + 1) g k with
        | (g1, log, some e) => (Except.error (Err.computeFailed e), g1, log)
        | (g1, log, none) =>
          match g1.find? k with
          | some t => (Except.ok t.value, g1, log)
          | none => (Except.error Err.unknownSlot, g1, log)
      | none => (Except.ok s.value, g, [])
    else (Except.ok s.value, g, [])

/-- Modelled from the spec (section 4): `getDirty` fails with `UnknownSlot`
if the key is absent and otherwise returns the current dirty flag with no
side effect. -/
def Graph.getDirty (g : Graph V E) (k : String) : Except (Err E) Bool :=
  match g.find? k with
  | none => Except.error Err.unknownSlot
  | some s => Except.ok s.dirty

/-- The cached value stored under `k`, if the key is present. -/
def Graph.valueOf (g : Graph V E) (k : String) : Option (Value V) :=
  (g.find? k).map Slot.value

/-- The chain graph A → B → C of the spec's propagation property: slot "a"
is a plain source, slot "b" computes (with `cb`) from "a", and slot "c"
computes (with `cc`) from "b". -/
def chainGraph (cb cc : List (Value V) → Except E (Value V)) : Graph V E :=
  let g := (Graph.empty.addSlot "a" none).2
  let g := (g.addSlot "b" (some cb)).2
  let g := (g.addSlot "c" (some cc)).2
  let g := (g.addDependency "a" "b").2
  (g.addDependency "b" "c").2

/-- The diamond graph of the spec's diamond-dependency property: slot "a"
feeds the computed slots "b" and "c", and both feed the computed slot
"d". -/
def diamondGraph (cb cc cd : List (Value V) → Except E (Value V)) : Graph V E :=
  let g := (Graph.empty.addSlot "a" none).2
  let g := (g.addSlot "b" (some cb)).2
  let g := (g.addSlot "c" (some cc)).2
  let g := (g.addSlot "d" (some cd)).2
  let g := (g.addDependency "a" "b").2
  let g := (g.addDependency "a" "c").2
  let g := (g.addDependency "b" "d").2
  (g.addDependency "c" "d").2

/-- The two-slot wiring step of the cycle-rejection scenario: slots "x" and
"y" registered through the API, then the edge "x" → "y" added. -/
def twoStep (cx cy : Option (List (Value V) → Except E (Value V))) :
    Except (Err E) Unit × Graph V E :=
  (((Graph.empty.addSlot "x" cx).2.addSlot "y" cy).2).addDependency "x" "y"

/-- The graph holding slots "x" and "y" with the single edge "x" → "y". -/
def twoWired (cx cy : Option (List (Value V) → Except E (Value V))) : Graph V E :=
  (twoStep cx cy).2

/-- Wrap a total compute function as a never-failing compute. -/
def okC (f : List (Value V) → Value V) : List (Value V) → Except E (Value V) :=
  fun l => Except.ok (f l)

/-- A compute function that always raises the failure `e`. -/
def failC (e : E) : List (Value V) → Except E (Value V) :=
  fun _ => Except.error e

/-- The chain graph as an explicit table: freshly wired, both computed slots
dirty. -/
def chainWired (cb cc : List (Value V) → Except E (Value V)) : Graph V E :=
  ⟨[("a", ⟨Value.unset, false, none, [], ["b"]⟩),
    ("b", ⟨Value.unset, true, some cb, ["a"], ["c"]⟩),
    ("c", ⟨Value.unset, true, some cc, ["b"], []⟩)]⟩

/-- The chain after its first full evaluation: every slot clean, caches
filled from the unset source. -/
def chainCleaned (fb fc : List (Value V) → Value V) : Graph V E :=
  ⟨[("a", ⟨Value.unset, false, none, [], ["b"]⟩),
    ("b", ⟨fb [Value.unset], false, some (okC fb), ["a"], ["c"]⟩),
    ("c", ⟨fc [fb [Value.unset]], false, some (okC fc), ["b"], []⟩)]⟩

/-- The freshly wired chain after `getValue "b"` only: "b" recomputed and
clean, "c" still dirty. -/
def chainHalf (fb fc : List (Value V) → Value V) : Graph V E :=
  ⟨[("a", ⟨Value.unset, false, none, [], ["b"]⟩),
    ("b", ⟨fb [Value.unset], false, some (okC fb), ["a"], ["c"]⟩),
    ("c", ⟨Value.unset, true, some (okC fc), ["b"], []⟩)]⟩

/-- The cleaned chain after `setValue "a" x`: "a" holds the new value and is
clean, "b" and "c" are marked dirty, their stale caches untouched. -/
def chainSet (fb fc : List (Value V) → Value V) (x : V) : Graph V E :=
  ⟨[("a", ⟨Value.mk x, false, none, [], ["b"]⟩),
    ("b", ⟨fb [Value.unset], true, some (okC fb), ["a"], ["c"]⟩),
    ("c", ⟨fc [fb [Value.unset]], true, some (okC fc), ["b"], []⟩)]⟩

/-- The chain after `setValue "a" x` and a second full evaluation. -/
def chainSetCleaned (fb fc : List (Value V) → Value V) (x : V) : Graph V E :=
  ⟨[("a", ⟨Value.mk x, false, none, [], ["b"]⟩),
    ("b", ⟨fb [Value.mk x], false, some (okC fb), ["a"], ["c"]⟩),
    ("c", ⟨fc [fb [Value.mk x]], false, some (okC fc), ["b"], []⟩)]⟩

/-- The twice-evaluated chain after a second `setValue "a" x` writing the
very value already stored: "b" and "c" dirty again. -/
def chainReset (fb fc : List (Value V) → Value V) (x : V) : Graph V E :=
  ⟨[("a", ⟨Value.mk x, false, none, [], ["b"]⟩),
    ("b", ⟨fb [Value.mk x], true, some (okC fb), ["a"], ["c"]⟩),
    ("c", ⟨fc [fb [Value.mk x]], true, some (okC fc), ["b"], []⟩)]⟩

/-- The chain whose "c" compute always fails, after an attempted
`getValue "c"`: "b" was recomputed and is clean, "c" keeps its unset cache
and stays dirty. -/
def chainFailed (fb : List (Value V) → Value V) (e : E) : Graph V E :=
  ⟨[("a", ⟨Value.unset, false, none, [], ["b"]⟩),
    ("b", ⟨fb [Value.unset], false, some (okC fb), ["a"], ["c"]⟩),
    ("c", ⟨Value.unset, true, some (failC e), ["b"], []⟩)]⟩

/-- The diamond graph as an explicit table: freshly wired, the three
computed slots dirty. -/
def diamondWired (cb cc cd : List (Value V) → Except E (Value V)) : Graph V E :=
  ⟨[("a", ⟨Value.unset, false, none, [], ["b", "c"]⟩),
    ("b", ⟨Value.unset, true, some cb, ["a"], ["d"]⟩),
    ("c", ⟨Value.unset, true, some cc, ["a"], ["d"]⟩),
    ("d", ⟨Value.unset, true, some cd, ["b", "c"], []⟩)]⟩

/-- The diamond after its first full evaluation. -/
def diamondCleaned (fb fc fd : List (Value V) → Value V) : Graph V E :=
  ⟨[("a", ⟨Value.unset, false, none, [], ["b", "c"]⟩),
    ("b", ⟨fb [Value.unset], false, some (okC fb), ["a"], ["d"]⟩),
    ("c", ⟨fc [Value.unset], false, some (okC fc), ["a"], ["d"]⟩),
    ("d", ⟨fd [fb [Value.unset], fc [Value.unset]], false, some (okC fd), ["b", "c"], []⟩)]⟩

/-- The cleaned diamond after `setValue "a" x`: the three computed slots
dirty again. -/
def diamondSet (fb fc fd : List (Value V) → Value V) (x : V) : Graph V E :=
  ⟨[("a", ⟨Value.mk x, false, none, [], ["b", "c"]⟩),
    ("b", ⟨fb [Value.unset], true, some (okC fb), ["a"], ["d"]⟩),
    ("c", ⟨fc [Value.unset], true, some (okC fc), ["a"], ["d"]⟩),
    ("d", ⟨fd [fb [Value.unset], fc [Value.unset]], true, some (okC fd), ["b", "c"], []⟩)]⟩

/-- The diamond after `setValue "a" x` and a second full evaluation. -/
def diamondSetCleaned (fb fc fd : List (Value V) → Value V) (x : V) : Graph V E :=
  ⟨[("a", ⟨Value.mk x, false, none, [], ["b", "c"]⟩),
    ("b", ⟨fb [Value.mk x], false, some (okC fb), ["a"], ["d"]⟩),
    ("c", ⟨fc [Value.mk x], false, some (okC fc), ["a"], ["d"]⟩),
    ("d", ⟨fd [fb [Value.mk x], fc [Value.mk x]], false, some (okC fd), ["b", "c"], []⟩)]⟩

/-- The two-slot graph with the edge "x" → "y" as an explicit table. -/
def cycleBase (cx cy : Option (List (Value V) → Except E (Value V))) : Graph V E :=
  ⟨[("x", ⟨Value.unset, cx.isSome, cx, [], ["y"]⟩),
    ("y", ⟨Value.unset, true, cy, ["x"], []⟩)]⟩

/-- What the widget's `_updateFromPlug` leaves on screen: the menu button's
enabled flag and text, and whether the custom-editing widgets (the origin,
size and pixel-aspect labels and fields) are visible. -/
structure WidgetState where
  menuEnabled : Bool
  buttonText : String
  customVisible : Bool
deriving DecidableEq

/-- Shallow embedding of `FormatPlugValueWidget._updateFromPlug`
(src/python/GafferImageUI/FormatPlugValueWidget.py, lines 87-115). `F` is
the format type; `defaultFormat` stands for `GafferImage.Format()`,
`formatName` for `GafferImage.Format.name` (returning "" for an
unregistered format), `plug` for `self.getPlug()` and its value, and
`metadataMode` for the stored "formatPlugValueWidget:mode" metadata (absent
metadata is `none`). The method enables the button iff the plug is
editable; with no plug the text is "" and the mode "standard"; with the
default empty format the text is "Default Format" and the mode is forced to
"standard"; otherwise the text is the registered name, an unregistered
format forcing the mode to "custom". The button shows "Custom" exactly when
the final mode is "custom", and the custom-editing widgets are visible
exactly then. -/
def updateFromPlug (F : Type) [DecidableEq F] (defaultFormat : F)
    (formatName : F → String) (editable : Bool) (plug : Option F)
    (metadataMode : Option String) : WidgetState :=
  let tm : String × Option String :=
    match plug with
    | none => ("", some "standard")
    | some fmt =>
      if fmt = defaultFormat then ("Default Format", some "standard")
      else
        let text := formatName fmt
        if text = "" then (text, some "custom")
        else (text, metadataMode)
  { menuEnabled := editable,
    buttonText := if tm.2 == some "custom" then "Custom" else tm.1,
    customVisible := tm.2 == some "custom" }

/-- Updating under key `j` changes no key's lookup except `j`'s, whose slot
gets `f` applied. -/
theorem find?_update (g : Graph V E) (j k : String) (f : Slot V E → Slot V E) :
    (g.update j f).find? k = if j = k then (g.find? k).map f else g.find? k := by
  unfold Graph.update Graph.find?
  rw [List.find?_map]
  have hpred : ((fun p => p.1 == k) ∘ fun p : String × Slot V E =>
      if p.1 == j then (p.1, f p.2) else p) = fun p : String × Slot V E => p.1 == k := by
    funext p
    by_cases h : (p.1 == j) = true <;> simp [Function.comp, h]
  rw [hpred]
  cases hfind : (g.slots.find? fun p => p.1 == k) with
  | none => by_cases hjk : j = k <;> simp [hjk]
  | some q =>
    have hk' : q.1 = k := by
      have hk := List.find?_some (p := fun p : String × Slot V E => p.1 == k) hfind
      simpa using hk
    by_cases hjk : j = k
    · subst hjk
      simp [Option.map_map, Function.comp, hk', Option.map]
    · have hj : (q.1 == j) = false := by
        simp [hk']
        exact fun h => hjk h.symm
      simp [Option.map_map, Function.comp, hj, Option.map, hjk]

/-- A successful `addDependency` wiring marks the downstream slot dirty. -/
theorem getDirty_after_addDependency (g : Graph V E) (a b : String)
    (sa sb : Slot V E) (hfa : g.find? a = some sa) (hfb : g.find? b = some sb)
    (hnc : (g.reachable b).contains a = false) :
    (g.addDependency a b).1 = Except.ok () ∧
    (g.addDependency a b).2.getDirty b = Except.ok true := by
  unfold Graph.addDependency
  rw [hfa, hfb]
  simp only [hnc, Bool.false_eq_true, if_false]
  refine ⟨trivial, ?_⟩
  unfold Graph.getDirty
  rw [find?_update, if_pos rfl, find?_update]
  by_cases hab : a = b
  · subst hab
    rw [if_pos rfl, hfa]
    rfl
  · rw [if_neg hab, hfb]
    rfl

/-- A clean slot's `getValue` returns the cached value with no recomputation
and no side effect. -/
theorem getValue_clean (g : Graph V E) (k : String) (s : Slot V E)
    (hf : g.find? k = some s) (hd : s.dirty = false) :
    g.getValue k = (Except.ok s.value, g, []) := by
  unfold Graph.getValue
  rw [hf]
  simp only [hd, Bool.false_eq_true, if_false]

/-- `setValue` on a slot owning a compute function fails and changes
nothing. -/
theorem setValue_computed (g : Graph V E) (k : String) (x : V) (s : Slot V E)
    (hf : g.find? k = some s) (hc : s.compute.isSome = true) :
    g.setValue k x = (Except.error Err.computedSlotReadOnly, g) := by
  unfold Graph.setValue
  rw [hf]
  simp only [hc, if_true]

/-- The chain built through the API is the explicit table `chainWired`. -/
theorem chainGraph_eq (cb cc : List (Value V) → Except E (Value V)) :
    chainGraph cb cc = chainWired cb cc := by
  have h1 : (Graph.empty : Graph V E).addSlot "a" none =
      (Except.ok (), ⟨[("a", ⟨Value.unset, false, none, [], []⟩)]⟩) := rfl
  have h2 : (⟨[("a", ⟨Value.unset, false, none, [], []⟩)]⟩ : Graph V E).addSlot "b" (some cb) =
      (Except.ok (), ⟨[("a", ⟨Value.unset, false, none, [], []⟩),
                      ("b", ⟨Value.unset, true, some cb, [], []⟩)]⟩) := rfl
  have h3 : (⟨[("a", ⟨Value.unset, false, none, [], []⟩),
              ("b", ⟨Value.unset, true, some cb, [], []⟩)]⟩ : Graph V E).addSlot "c" (some cc) =
      (Except.ok (), ⟨[("a", ⟨Value.unset, false, none, [], []⟩),
                      ("b", ⟨Value.unset, true, some cb, [], []⟩),
                      ("c", ⟨Value.unset, true, some cc, [], []⟩)]⟩) := rfl
  have h4 : (⟨[("a", ⟨Value.unset, false, none, [], []⟩),
              ("b", ⟨Value.unset, true, some cb, [], []⟩),
              ("c", ⟨Value.unset, true, some cc, [], []⟩)]⟩ : Graph V E).addDependency "a" "b" =
      (Except.ok (), ⟨[("a", ⟨Value.unset, false, none, [], ["b"]⟩),
                      ("b", ⟨Value.unset, true, some cb, ["a"], []⟩),
                      ("c", ⟨Value.unset, true, some cc, [], []⟩)]⟩) := rfl
  have h5 : (⟨[("a", ⟨Value.unset, false, none, [], ["b"]⟩),
              ("b", ⟨Value.unset, true, some cb, ["a"], []⟩),
              ("c", ⟨Value.unset, true, some cc, [], []⟩)]⟩ : Graph V E).addDependency "b" "c" =
      (Except.ok (), chainWired cb cc) := rfl
  simp only [chainGraph, h1, h2, h3, h4, h5]

/-- The first `getValue "c"` on the wired chain recomputes "b" then "c" and
leaves `chainCleaned`. -/
theorem chain_first_getValue (fb fc : List (Value V) → Value V) :
    (chainWired (okC fb) (okC fc) : Graph V E).getValue "c" =
      (Except.ok (fc [fb [Value.unset]]), chainCleaned fb fc, ["b", "c"]) := rfl

/-- A `getValue "b"` on the wired chain recomputes "b" only. -/
theorem chain_b_getValue (fb fc : List (Value V) → Value V) :
    (chainWired (okC fb) (okC fc) : Graph V E).getValue "b" =
      (Except.ok (fb [Value.unset]), chainHalf fb fc, ["b"]) := rfl

/-- A repeated `getValue "c"` on the cleaned chain returns the cache,
invokes nothing and changes nothing. -/
theorem chain_repeat_getValue (fb fc : List (Value V) → Value V) :
    (chainCleaned fb fc : Graph V E).getValue "c" =
      (Except.ok (fc [fb [Value.unset]]), chainCleaned fb fc, []) := rfl

/-- `setValue "a" x` on the cleaned chain dirties "b" and "c". -/
theorem chain_setValue (fb fc : List (Value V) → Value V) (x : V) :
    (chainCleaned fb fc : Graph V E).setValue "a" x = (Except.ok (), chainSet fb fc x) := rfl

/-- The second full evaluation after `setValue "a" x`. -/
theorem chain_second_getValue (fb fc : List (Value V) → Value V) (x : V) :
    (chainSet fb fc x : Graph V E).getValue "c" =
      (Except.ok (fc [fb [Value.mk x]]), chainSetCleaned fb fc x, ["b", "c"]) := rfl

/-- A second `setValue "a" x` writing the value already stored still
dirties "b" and "c". -/
theorem chain_setValue_again (fb fc : List (Value V) → Value V) (x : V) :
    (chainSetCleaned fb fc x : Graph V E).setValue "a" x =
      (Except.ok (), chainReset fb fc x) := rfl

/-- A `getValue "c"` whose compute fails: "b" is recomputed, "c"'s compute
is invoked and raises, the failure propagates and "c" is left dirty with
its cache untouched. -/
theorem chain_failing_getValue (fb : List (Value V) → Value V) (e : E) :
    (chainWired (okC fb) (failC e) : Graph V E).getValue "c" =
      (Except.error (Err.computeFailed e), chainFailed fb e, ["b", "c"]) := rfl

/-- The diamond built through the API is the explicit table
`diamondWired`. -/
theorem diamondGraph_eq (cb cc cd : List (Value V) → Except E (Value V)) :
    diamondGraph cb cc cd = diamondWired cb cc cd := by
  have h1 : (Graph.empty : Graph V E).addSlot "a" none =
      (Except.ok (), ⟨[("a", ⟨Value.unset, false, none, [], []⟩)]⟩) := rfl
  have h2 : (⟨[("a", ⟨Value.unset, false, none, [], []⟩)]⟩ : Graph V E).addSlot "b" (some cb) =
      (Except.ok (), ⟨[("a", ⟨Value.unset, false, none, [], []⟩),
                      ("b", ⟨Value.unset, true, some cb, [], []⟩)]⟩) := rfl
  have h3 : (⟨[("a", ⟨Value.unset, false, none, [], []⟩),
              ("b", ⟨Value.unset, true, some cb, [], []⟩)]⟩ : Graph V E).addSlot "c" (some cc) =
      (Except.ok (), ⟨[("a", ⟨Value.unset, false, none, [], []⟩),
                      ("b", ⟨Value.unset, true, some cb, [], []⟩),
                      ("c", ⟨Value.unset, true, some cc, [], []⟩)]⟩) := rfl
  have h4 : (⟨[("a", ⟨Value.unset, false, none, [], []⟩),
              ("b", ⟨Value.unset, true, some cb, [], []⟩),
              ("c", ⟨Value.unset, true, some cc, [], []⟩)]⟩ : Graph V E).addSlot "d" (some cd) =
      (Except.ok (), ⟨[("a", ⟨Value.unset, false, none, [], []⟩),
                      ("b", ⟨Value.unset, true, some cb, [], []⟩),
                      ("c", ⟨Value.unset, true, some cc, [], []⟩),
                      ("d", ⟨Value.unset, true, some cd, [], []⟩)]⟩) := rfl
  have h5 : (⟨[("a", ⟨Value.unset, false, none, [], []⟩),
              ("b", ⟨Value.unset, true, some cb, [], []⟩),
              ("c", ⟨Value.unset, true, some cc, [], []⟩),
              ("d", ⟨Value.unset, true, some cd, [], []⟩)]⟩ : Graph V E).addDependency "a" "b" =
      (Except.ok (), ⟨[("a", ⟨Value.unset, false, none, [], ["b"]⟩),
                      ("b", ⟨Value.unset, true, some cb, ["a"], []⟩),
                      ("c", ⟨Value.unset, true, some cc, [], []⟩),
                      ("d", ⟨Value.unset, true, some cd, [], []⟩)]⟩) := rfl
  have h6 : (⟨[("a", ⟨Value.unset, false, none, [], ["b"]⟩),
              ("b", ⟨Value.unset, true, some cb, ["a"], []⟩),
              ("c", ⟨Value.unset, true, some cc, [], []⟩),
              ("d", ⟨Value.unset, true, some cd, [], []⟩)]⟩ : Graph V E).addDependency "a" "c" =
      (Except.ok (), ⟨[("a", ⟨Value.unset, false, none, [], ["b", "c"]⟩),
                      ("b", ⟨Value.unset, true, some cb, ["a"], []⟩),
                      ("c", ⟨Value.unset, true, some cc, ["a"], []⟩),
                      ("d", ⟨Value.unset, true, some cd, [], []⟩)]⟩) := rfl
  have h7 : (⟨[("a", ⟨Value.unset, false, none, [], ["b", "c"]⟩),
              ("b", ⟨Value.unset, true, some cb, ["a"], []⟩),
              ("c", ⟨Value.unset, true, some cc, ["a"], []⟩),
              ("d", ⟨Value.unset, true, some cd, [], []⟩)]⟩ : Graph V E).addDependency "b" "d" =
      (Except.ok (), ⟨[("a", ⟨Value.unset, false, none, [], ["b", "c"]⟩),
                      ("b", ⟨Value.unset, true, some cb, ["a"], ["d"]⟩),
                      ("c", ⟨Value.unset, true, some cc, ["a"], []⟩),
                      ("d", ⟨Value.unset, true, some cd, ["b"], []⟩)]⟩) := rfl
  have h8 : (⟨[("a", ⟨Value.unset, false, none, [], ["b", "c"]⟩),
              ("b", ⟨Value.unset, true, some cb, ["a"], ["d"]⟩),
              ("c", ⟨Value.unset, true, some cc, ["a"], []⟩),
              ("d", ⟨Value.unset, true, some cd, ["b"], []⟩)]⟩ : Graph V E).addDependency "c" "d" =
      (Except.ok (), diamondWired cb cc cd) := rfl
  simp only [diamondGraph, h1, h2, h3, h4, h5, h6, h7, h8]

/-- The first `getValue "d"` on the wired diamond recomputes "b", "c" and
"d" once each. -/
theorem diamond_first_getValue (fb fc fd : List (Value V) → Value V) :
    (diamondWired (okC fb) (okC fc) (okC fd) : Graph V E).getValue "d" =
      (Except.ok (fd [fb [Value.unset], fc [Value.unset]]),
       diamondCleaned fb fc fd, ["b", "c", "d"]) := rfl

/-- `setValue "a" x` on the cleaned diamond dirties "b", "c" and "d", each
visited once by the breadth-first marking. -/
theorem diamond_setValue (fb fc fd : List (Value V) → Value V) (x : V) :
    (diamondCleaned fb fc fd : Graph V E).setValue "a" x =
      (Except.ok (), diamondSet fb fc fd x) := rfl

/-- The second full evaluation of the diamond after `setValue "a" x`:
again one compute invocation for each of "b", "c" and "d". -/
theorem diamond_second_getValue (fb fc fd : List (Value V) → Value V) (x : V) :
    (diamondSet fb fc fd x : Graph V E).getValue "d" =
      (Except.ok (fd [fb [Value.mk x], fc [Value.mk x]]),
       diamondSetCleaned fb fc fd x, ["b", "c", "d"]) := rfl

/-- The two-slot wiring step succeeds and yields the table `cycleBase`. -/
theorem twoStep_eq (cx cy : Option (List (Value V) → Except E (Value V))) :
    twoStep cx cy = (Except.ok (), cycleBase cx cy) := by
  have h1 : (Graph.empty : Graph V E).addSlot "x" cx =
      (Except.ok (), ⟨[("x", ⟨Value.unset, cx.isSome, cx, [], []⟩)]⟩) := rfl
  have h2 : (⟨[("x", ⟨Value.unset, cx.isSome, cx, [], []⟩)]⟩ : Graph V E).addSlot "y" cy =
      (Except.ok (), ⟨[("x", ⟨Value.unset, cx.isSome, cx, [], []⟩),
                      ("y", ⟨Value.unset, cy.isSome, cy, [], []⟩)]⟩) := rfl
  have h3 : (⟨[("x", ⟨Value.unset, cx.isSome, cx, [], []⟩),
              ("y", ⟨Value.unset, cy.isSome, cy, [], []⟩)]⟩ : Graph V E).addDependency "x" "y" =
      (Except.ok (), cycleBase cx cy) := rfl
  simp only [twoStep, h1, h2, h3]

/-- The two-slot graph built through the API is the table `cycleBase`. -/
theorem twoWired_eq (cx cy : Option (List (Value V) → Except E (Value V))) :
    twoWired cx cy = cycleBase cx cy := by
  simp only [twoWired, twoStep_eq]

/-- Claim C1: in the chain A → B → C, after `setValue "a" x` both "b" and
"c" report dirty; after a subsequent `getValue "c"` both report dirty =
false, and a further `getValue "b"` invokes no compute function. -/
theorem c1_chain_propagation (V E : Type) (fb fc : List (Value V) → Value V) (x : V) :
    (((((chainGraph (okC fb) (okC fc) : Graph V E).getValue "c").2.1.setValue "a" x).2).getDirty "b"
        = Except.ok true)
  ∧ (((((chainGraph (okC fb) (okC fc) : Graph V E).getValue "c").2.1.setValue "a" x).2).getDirty "c"
        = Except.ok true)
  ∧ ((((((chainGraph (okC fb) (okC fc) : Graph V E).getValue "c").2.1.setValue "a" x).2).getValue "c").2.1.getDirty "b"
        = Except.ok false)
  ∧ ((((((chainGraph (okC fb) (okC fc) : Graph V E).getValue "c").2.1.setValue "a" x).2).getValue "c").2.1.getDirty "c"
        = Except.ok false)
  ∧ (((((((chainGraph (okC fb) (okC fc) : Graph V E).getValue "c").2.1.setValue "a" x).2).getValue "c").2.1.getValue "b").2.2
        = []) := by
  simp only [chainGraph_eq, chain_first_getValue, chain_setValue, chain_second_getValue]
  exact ⟨rfl, rfl, rfl, rfl, rfl⟩

/-- Claim C2: a successful `addDependency` wiring leaves the downstream
slot dirty on any graph, and on the chain both computed slots report dirty
after wiring; the flag stays true until the first `getValue` on the slot
("b" turns clean after `getValue "b"` while "c", not yet read, stays
dirty). -/
theorem c2_wired_dirty (V E : Type) (fb fc : List (Value V) → Value V) :
    (∀ (g : Graph V E) (a b : String) (sa sb : Slot V E),
        g.find? a = some sa → g.find? b = some sb →
        (g.reachable b).contains a = false →
        (g.addDependency a b).1 = Except.ok () ∧
        (g.addDependency a b).2.getDirty b = Except.ok true)
  ∧ ((chainGraph (okC fb) (okC fc) : Graph V E).getDirty "b" = Except.ok true)
  ∧ ((chainGraph (okC fb) (okC fc) : Graph V E).getDirty "c" = Except.ok true)
  ∧ (((chainGraph (okC fb) (okC fc) : Graph V E).getValue "b").2.1.getDirty "b" = Except.ok false)
  ∧ (((chainGraph (okC fb) (okC fc) : Graph V E).getValue "b").2.1.getDirty "c" = Except.ok true) := by
  refine ⟨fun g a b sa sb hfa hfb hnc => getDirty_after_addDependency g a b sa sb hfa hfb hnc,
    ?_, ?_, ?_, ?_⟩ <;>
    simp only [chainGraph_eq, chain_b_getValue] <;> rfl

/-- Claim C3: `setValue` dirties every transitive downstream slot even when
the value written is the very value already stored: after cleaning, setting
"a" to `x`, cleaning again, a second `setValue "a" x` with the same `x`
leaves "b" and "c" dirty again (no value-equality short-circuit). -/
theorem c3_setValue_always_dirties (V E : Type) (fb fc : List (Value V) → Value V) (x : V) :
    ((((((chainGraph (okC fb) (okC fc) : Graph V E).getValue "c").2.1.setValue "a" x).2.getValue "c").2.1).getDirty "b"
        = Except.ok false)
  ∧ ((((((chainGraph (okC fb) (okC fc) : Graph V E).getValue "c").2.1.setValue "a" x).2.getValue "c").2.1).getDirty "c"
        = Except.ok false)
  ∧ (((((((chainGraph (okC fb) (okC fc) : Graph V E).getValue "c").2.1.setValue "a" x).2.getValue "c").2.1.setValue "a" x).2).getDirty "b"
        = Except.ok true)
  ∧ (((((((chainGraph (okC fb) (okC fc) : Graph V E).getValue "c").2.1.setValue "a" x).2.getValue "c").2.1.setValue "a" x).2).getDirty "c"
        = Except.ok true) := by
  simp only [chainGraph_eq, chain_first_getValue, chain_setValue, chain_second_getValue,
    chain_setValue_again]
  exact ⟨rfl, rfl, rfl, rfl⟩

/-- Claim C4: a clean slot's `getValue` returns the cached value with no
recomputation and no side effect on any graph, so on the chain two
successive `getValue "c"` calls return identical values, leave the graph
unchanged, log no compute invocation the second time, and report dirty =
false after both calls. -/
theorem c4_getValue_idempotent (V E : Type) (fb fc : List (Value V) → Value V) :
    (∀ (g : Graph V E) (k : String) (s : Slot V E),
        g.find? k = some s → s.dirty = false →
        g.getValue k = (Except.ok s.value, g, []))
  ∧ ((((chainGraph (okC fb) (okC fc) : Graph V E).getValue "c").2.1.getValue "c").1 =
      ((chainGraph (okC fb) (okC fc) : Graph V E).getValue "c").1)
  ∧ ((((chainGraph (okC fb) (okC fc) : Graph V E).getValue "c").2.1.getValue "c").2.1 =
      ((chainGraph (okC fb) (okC fc) : Graph V E).getValue "c").2.1)
  ∧ ((((chainGraph (okC fb) (okC fc) : Graph V E).getValue "c").2.1.getValue "c").2.2 = [])
  ∧ (((chainGraph (okC fb) (okC fc) : Graph V E).getValue "c").2.1.getDirty "c" = Except.ok false)
  ∧ ((((chainGraph (okC fb) (okC fc) : Graph V E).getValue "c").2.1.getValue "c").2.1.getDirty "c"
        = Except.ok false) := by
  refine ⟨fun g k s hf hd => getValue_clean g k s hf hd, ?_, ?_, ?_, ?_, ?_⟩ <;>
    simp only [chainGraph_eq, chain_first_getValue, chain_repeat_getValue] <;> rfl

/-- Claim C5: in the diamond where "a" feeds the computed slots "b" and "c"
and both feed "d", a `setValue "a" x` followed by one `getValue "d"`
invokes the compute functions of "b" and of "c" exactly once each (the
invocation log is exactly ["b", "c", "d"]). -/
theorem c5_diamond_single_recompute (V E : Type)
    (fb fc fd : List (Value V) → Value V) (x : V) :
    (((((((diamondGraph (okC fb) (okC fc) (okC fd) : Graph V E).getValue "d").2.1.setValue "a" x).2).getValue "d").2.2).count "b" = 1)
  ∧ (((((((diamondGraph (okC fb) (okC fc) (okC fd) : Graph V E).getValue "d").2.1.setValue "a" x).2).getValue "d").2.2).count "c" = 1)
  ∧ ((((((diamondGraph (okC fb) (okC fc) (okC fd) : Graph V E).getValue "d").2.1.setValue "a" x).2).getValue "d").2.2 = ["b", "c", "d"]) := by
  simp only [diamondGraph_eq, diamond_first_getValue, diamond_setValue, diamond_second_getValue]
  refine ⟨?_, ?_, ?_⟩ <;> trivial

/-- Claim C6: with slots "x" and "y" and the edge "x" → "y" in place,
`addDependency "y" "x"` fails with `cycleDetected` and leaves the graph
unchanged, and a subsequent valid edge "y" → "z" to a fresh slot still
succeeds. -/
theorem c6_cycle_rejected (V E : Type)
    (cx cy : Option (List (Value V) → Except E (Value V))) :
    ((twoStep cx cy : Except (Err E) Unit × Graph V E).1 = Except.ok ())
  ∧ (((twoWired cx cy : Graph V E).addDependency "y" "x").1 = Except.error Err.cycleDetected)
  ∧ (((twoWired cx cy : Graph V E).addDependency "y" "x").2 = twoWired cx cy)
  ∧ (((((twoWired cx cy : Graph V E).addDependency "y" "x").2.addSlot "z" none).2.addDependency "y" "z").1
        = Except.ok ()) := by
  simp only [twoStep_eq, twoWired_eq]
  have h5 : (cycleBase cx cy : Graph V E).addSlot "z" none =
      (Except.ok (), ⟨[("x", ⟨Value.unset, cx.isSome, cx, [], ["y"]⟩),
                      ("y", ⟨Value.unset, true, cy, ["x"], []⟩),
                      ("z", ⟨Value.unset, false, none, [], []⟩)]⟩) := rfl
  have h4 : (cycleBase cx cy : Graph V E).addDependency "y" "x" =
      (Except.error Err.cycleDetected, cycleBase cx cy) := rfl
  simp only [h4, h5]
  refine ⟨?_, ?_, ?_, ?_⟩ <;> trivial

/-- Claim C7: `setValue` on a slot owning a compute function fails with
`computedSlotReadOnly` and leaves the whole graph, the slot's cached value
and its dirty flag included, unchanged; so on the cleaned chain a
`setValue "b" x` fails and changes nothing. -/
theorem c7_computed_slot_read_only (V E : Type)
    (fb fc : List (Value V) → Value V) (x : V) :
    (∀ (g : Graph V E) (k : String) (y : V) (s : Slot V E),
        g.find? k = some s → s.compute.isSome = true →
        g.setValue k y = (Except.error Err.computedSlotReadOnly, g))
  ∧ ((((chainGraph (okC fb) (okC fc) : Graph V E).getValue "c").2.1.setValue "b" x).1
        = Except.error Err.computedSlotReadOnly)
  ∧ ((((chainGraph (okC fb) (okC fc) : Graph V E).getValue "c").2.1.setValue "b" x).2
        = ((chainGraph (okC fb) (okC fc) : Graph V E).getValue "c").2.1) := by
  refine ⟨fun g k y s hf hc => setValue_computed g k y s hf hc, ?_, ?_⟩ <;>
    simp only [chainGraph_eq, chain_first_getValue] <;> rfl

/-- Claim C8: a compute function raising its own failure during `getValue`
propagates that failure unchanged to the caller, the slot stays dirty, and
no value is cached for it (its cache still holds the unset sentinel); the
log shows the failing compute was invoked after its upstream. -/
theorem c8_compute_failure_propagates (V E : Type)
    (fb : List (Value V) → Value V) (e : E) :
    (((chainGraph (okC fb) (failC e) : Graph V E).getValue "c").1
        = Except.error (Err.computeFailed e))
  ∧ (((chainGraph (okC fb) (failC e) : Graph V E).getValue "c").2.1.getDirty "c" = Except.ok true)
  ∧ (((chainGraph (okC fb) (failC e) : Graph V E).getValue "c").2.1.valueOf "c" = some Value.unset)
  ∧ (((chainGraph (okC fb) (failC e) : Graph V E).getValue "c").2.2 = ["b", "c"]) := by
  simp only [chainGraph_eq, chain_failing_getValue]
  refine ⟨?_, ?_, ?_, ?_⟩ <;> trivial

/-- Claim C9: on any graph, a freshly added slot with no compute function
and no `setValue` call returns the unset sentinel from `getValue` and
reports dirty = false. -/
theorem c9_fresh_slot (V E : Type) (g : Graph V E) (k : String)
    (h : g.find? k = none) :
    (((g.addSlot k none).2.getValue k).1 = Except.ok Value.unset) ∧
    ((g.addSlot k none).2.getDirty k = Except.ok false) := by
  have hl : (g.slots.find? fun p => p.1 == k) = none := by
    cases hf : (g.slots.find? fun p => p.1 == k) with
    | none => rfl
    | some p => rw [Graph.find?, hf] at h; simp at h
  have hstep : (g.addSlot k none).2 =
      ⟨g.slots ++ [(k, ⟨Value.unset, false, none, [], []⟩)]⟩ := by
    unfold Graph.addSlot
    rw [Graph.find?, hl]
    rfl
  have hfind : (Graph.find? (V := V) (E := E)
      ⟨g.slots ++ [(k, ⟨Value.unset, false, none, [], []⟩)]⟩ k) =
      some ⟨Value.unset, false, none, [], []⟩ := by
    rw [Graph.find?, List.find?_append, hl]
    simp
  constructor
  · rw [hstep]
    unfold Graph.getValue
    rw [hfind]
    rfl
  · rw [hstep]
    unfold Graph.getDirty
    rw [hfind]

/-- Witness for claim C9: the fresh slot "q" added to the empty graph over
natural-number payloads. -/
theorem c9_fresh_slot_witness :
    ((((Graph.empty : Graph Nat String).addSlot "q" none).2.getValue "q").1
        = Except.ok Value.unset) ∧
    (((Graph.empty : Graph Nat String).addSlot "q" none).2.getDirty "q" = Except.ok false) :=
  c9_fresh_slot Nat String Graph.empty "q" rfl

/-- Claim C10: in the embedded `_updateFromPlug`, a plug value equal to the
default empty format sets the button text to "Default Format" and hides the
custom-editing widgets whatever the stored metadata mode (in particular
mode "custom"); a non-default value whose name is not registered forces
custom mode: the button shows "Custom" and the editing widgets become
visible. -/
theorem c10_update_from_plug (F : Type) [inst : DecidableEq F] (defaultFormat : F)
    (formatName : F → String) (editable : Bool) (mode : Option String) (fmt : F) :
    (updateFromPlug F defaultFormat formatName editable (some defaultFormat) mode =
      ⟨editable, "Default Format", false⟩)
  ∧ (fmt ≠ defaultFormat → formatName fmt = "" →
      updateFromPlug F defaultFormat formatName editable (some fmt) mode =
        ⟨editable, "Custom", true⟩) := by
  constructor
  · simp [updateFromPlug]
  · intro hne hname
    simp [updateFromPlug, hne, hname]

end GafferProof
